import Mathlib

/-!
Verification of the mock-server backend's service layer (`app/services.py`).

The persistence layer is modelled as an explicit in-memory database value
(`DB`) holding one list per entity kind together with a fresh-id counter;
each service function is translated into a Lean function that threads the
database explicitly and returns, besides the new database, either a result
or a typed error (`SvcError`), mirroring Python's raise of `NotAllowed` /
`DoesNotExist`.  Because the real persistence layer autocommits each ORM
call (the service functions carry no transaction boundary of their own),
a function that raises mid-way returns the database as mutated so far.
-/

set_option autoImplicit false

namespace MockServer

/-- One `BaseEndpoint` row: a root path segment, stored without a leading
slash. -/
structure BaseEndpoint where
  id : Int
  endpoint : String
deriving Repr, DecidableEq

/-- One `RelativeEndpoint` row: a (base endpoint, path, HTTP method)
triple with a derived matching expression and an opaque meta_data blob. -/
structure RelativeEndpoint where
  id : Int
  base_endpoint_id : Int
  endpoint : String
  method : String
  regex_endpoint : String
  meta_data : String
deriving Repr, DecidableEq

/-- One `Field` row: a declared field of a relative endpoint's schema. -/
structure Field where
  id : Int
  relative_endpoint_id : Int
  key : String
  type : String
  value : String
  is_array : Bool
deriving Repr, DecidableEq

/-- One `Schema` row: a named, reusable field-set definition. -/
structure Schema where
  id : Int
  name : String
deriving Repr, DecidableEq

/-- One `SchemaData` row: a key of a `Schema`; `value` is either the index
of a primitive type in the fixed enumeration or the id of another schema
when `type` is `"schema"`. -/
structure SchemaData where
  id : Int
  schema_id : Int
  key : String
  type : String
  value : Int
deriving Repr, DecidableEq

/-- The database state: one list of rows per entity kind, plus a counter
supplying fresh surrogate ids. -/
structure DB where
  baseEndpoints : List BaseEndpoint
  relativeEndpoints : List RelativeEndpoint
  fields : List Field
  schemas : List Schema
  schemaDatas : List SchemaData
  nextId : Int
deriving Repr, DecidableEq

/-- The error kinds surfaced by the service layer: a `NotAllowed`
validation failure carrying its message, the ORM's lookup-by-id failure
(`DoesNotExist`), and Python's `KeyError` escaping from an unguarded
dictionary access (an unhandled crash, not a typed validation failure). -/
inductive SvcError where
  | notAllowed (msg : String)
  | notFound
  | keyError (key : String)
deriving Repr, DecidableEq

/-- Modelled from the spec: `Field.SCHEMA`, one of the four field type
tags declared on the `Field` model (the model file is not part of the
sources at hand; the concrete tag strings are chosen distinct, which is
all the service code relies on). -/
def Field.SCHEMA : String := "schema"

/-- Modelled from the spec: `Field.VALUE` field type tag. -/
def Field.VALUE : String := "value"

/-- Modelled from the spec: `Field.URL_PARAM` field type tag. -/
def Field.URL_PARAM : String := "url_param"

/-- Modelled from the spec: `Field.QUERY_PARAM` field type tag. -/
def Field.QUERY_PARAM : String := "query_param"

/-- Modelled from the spec: `PrimitiveDataType.CHOICES`, the fixed,
ordered enumeration of primitive type names referenced by index in stored
`SchemaData` rows. -/
def PrimitiveDataType.CHOICES : List String := ["string", "integer", "boolean"]

/-- The opening brace character (written by code point to keep brace
characters out of literals). -/
def lbrace : Char := Char.ofNat 123

/-- The closing brace character. -/
def rbrace : Char := Char.ofNat 125

/-- The single-quote character, used inside validation messages. -/
def sq : String := String.mk [Char.ofNat 39]

/-- Placeholder names appearing in an endpoint path template, in template
order, scanning character by character; the second argument holds the
characters of the placeholder currently open, if any. -/
def placeholderScan : List Char → Option (List Char) → List String
  | [], _ => []
  | c :: rest, none =>
    if c = lbrace then placeholderScan rest (some [])
    else placeholderScan rest none
  | c :: rest, some acc =>
    if c = rbrace then String.mk acc :: placeholderScan rest none
    else placeholderScan rest (some (acc ++ [c]))

/-- Modelled from the spec: the derived `url_params` attribute of a
relative endpoint — the ordered set of placeholder names extracted from
the stored path template, duplicates collapsed. -/
def url_params (endpoint : String) : List String :=
  (placeholderScan endpoint.data none).foldl
    (fun acc n => if n ∈ acc then acc else acc ++ [n]) []

/-- The matching expression for a normalized path: each placeholder
becomes a capturing group matching one path segment, literals pass
through; `none` on an unclosed placeholder.  The Bool argument records
whether the scan is inside a placeholder. -/
def regexScan : Bool → List Char → Option (List Char)
  | false, [] => some []
  | true, [] => none
  | false, c :: rest =>
    if c = lbrace then (regexScan true rest).map (fun r => "([^/]+)".data ++ r)
    else (regexScan false rest).map (fun r => c :: r)
  | true, c :: rest =>
    if c = rbrace then regexScan false rest
    else regexScan true rest

/-- Modelled from the spec: the Endpoint Path Formatter
(`format_and_regex_endpoint` from `app/utils.py`, not among the sources
at hand).  Rejects an empty path, normalizes to exactly one leading
slash, and derives the anchored matching expression; malformed
placeholder syntax is rejected. -/
def format_and_regex_endpoint (raw : String) : Except SvcError (String × String) :=
  if raw.data = [] then
    .error (.notAllowed "Please enter a non-empty endpoint")
  else
    let path : List Char := '/' :: raw.data.dropWhile (fun c => c = '/')
    match regexScan false path with
    | none => .error (.notAllowed "Please enter a valid endpoint")
    | some r => .ok (String.mk path, String.mk ('^' :: r ++ ['$']))

/-- `base_endpoint_add` from `app/services.py`: strips one leading slash
from the submitted endpoint, then get-or-creates the `BaseEndpoint` row
with that string. -/
def base_endpoint_add (db : DB) (endpoint : String) : DB × BaseEndpoint :=
  let ep := if endpoint.data.head? = some '/' then String.mk endpoint.data.tail
            else endpoint
  match db.baseEndpoints.find? (fun b => b.endpoint == ep) with
  | some b => (db, b)
  | none =>
    let b : BaseEndpoint := { id := db.nextId, endpoint := ep }
    ({ db with baseEndpoints := db.baseEndpoints ++ [b], nextId := db.nextId + 1 }, b)

/-- One incoming field entry of an `endpoint_schema_update` payload.  The
payload is a dictionary, so the `id` and `isChanged` keys may be absent:
`id?` is `none` when the key is missing, and `isChanged?` is `none` when
the key is missing and `some b` when it is present with truthiness `b`. -/
structure FieldEntry where
  id? : Option Int
  key : String
  type : String
  value : String
  is_array : Bool
  isChanged? : Option Bool
deriving Repr, DecidableEq

/-- The `endpoint_schema_update` payload: the relative endpoint's id, the
incoming field entries, and the new meta_data blob. -/
structure SchemaUpdateInput where
  id : Int
  fields : List FieldEntry
  meta_data : String
deriving Repr, DecidableEq

/-- The message of the catch-all field-type failure: it enumerates
`Field.SCHEMA`, `Field.VALUE` and `Field.URL_PARAM` and omits
`Field.QUERY_PARAM`, exactly as the f-string in the source does. -/
def badTypeMsg : String :=
  "The field type should be one of " ++ Field.SCHEMA ++ ", " ++ Field.VALUE ++
    ", " ++ Field.URL_PARAM

/-- The per-entry validation of the `endpoint_schema_update` loop body:
the branch on the entry's type tag, raising `NotAllowed` with the
source's message on each failing branch. -/
def checkEntry (schemas urlParams : List String) (f : FieldEntry) : Except SvcError Unit :=
  if f.type == Field.SCHEMA then
    if schemas.contains f.value then .ok () else
      .error (.notAllowed ("Please enter valid schema name for " ++ sq ++ f.key ++ sq ++
        ", i.e. one of " ++ String.intercalate ", " schemas))
  else if f.type == Field.VALUE then
    if PrimitiveDataType.CHOICES.contains f.value then .ok () else
      .error (.notAllowed ("Please enter valid data type for " ++ sq ++ f.key ++ sq ++
        ", i.e. one of " ++ String.intercalate ", " PrimitiveDataType.CHOICES))
  else if f.type == Field.URL_PARAM then
    if urlParams.contains f.value then .ok () else
      .error (.notAllowed ("Please enter valid url param for " ++ sq ++ f.key ++ sq ++
        ", i.e. one of " ++ String.intercalate ", " urlParams))
  else if f.type == Field.QUERY_PARAM then
    if f.value == "" then
      .error (.notAllowed ("Please enter valid string for " ++ sq ++ f.key))
    else .ok ()
  else .error (.notAllowed badTypeMsg)

/-- The `for field in data['fields']` loop of `endpoint_schema_update`:
entries without the `isChanged` key are skipped, each remaining entry is
validated, and the survivors are partitioned into `fields_to_change`
(truthy `isChanged`) and `new_fields` (falsy `isChanged`), in order. -/
def processFields (schemas urlParams : List String) :
    List FieldEntry → Except SvcError (List FieldEntry × List FieldEntry)
  | [] => .ok ([], [])
  | f :: rest =>
    match f.isChanged? with
    | none => processFields schemas urlParams rest
    | some changed =>
      match checkEntry schemas urlParams f with
      | .error e => .error e
      | .ok _ =>
        match processFields schemas urlParams rest with
        | .error e => .error e
        | .ok p => if changed then .ok (f :: p.1, p.2) else .ok (p.1, f :: p.2)

/-- The id list of the deletion step of `endpoint_schema_update`: the ids
of incoming entries that carry an `id` key with a positive value. -/
def keepIds (fields : List FieldEntry) : List Int :=
  fields.filterMap (fun f =>
    match f.id? with
    | some i => if i > 0 then some i else none
    | none => none)

/-- One `Field.objects.filter(id=i).update(...)` call for the entry's id
`i`: rewrites the row whose id is `i` with the entry's key, value, type
and is_array. -/
def applyFieldUpdate (f : FieldEntry) (i : Int) (fl : Field) : Field :=
  if fl.id == i then
    { fl with key := f.key, value := f.value, type := f.type, is_array := f.is_array }
  else fl

/-- The update loop of `endpoint_schema_update`, one `update` call per
entry of `fields_to_change`, in order.  Each iteration reads the entry's
`id` key unguardedly, so an entry without it raises `KeyError` there,
after the updates of the earlier iterations have already been applied
(autocommit): the loop returns the rows as updated so far together with
the crash, and no later step runs. -/
def runFieldUpdates : List FieldEntry → List Field → List Field × Option SvcError
  | [], fields => (fields, none)
  | f :: rest, fields =>
    match f.id? with
    | none => (fields, some (.keyError "id"))
    | some i => runFieldUpdates rest (fields.map (applyFieldUpdate f i))

/-- The rows built by the `bulk_create` of `endpoint_schema_update`: one
fresh `Field` row per `new_fields` entry, bound to the endpoint, with
sequential fresh ids. -/
def mkNewFields (endpointId : Int) : Int → List FieldEntry → List Field
  | _, [] => []
  | n, f :: rest =>
    { id := n, relative_endpoint_id := endpointId, key := f.key, type := f.type,
      value := f.value, is_array := f.is_array } :: mkNewFields endpointId (n + 1) rest

/-- The predicate of the deletion step of `endpoint_schema_update`: a
`Field` row survives `endpoint.fields.exclude(id__in=keep).delete()` iff
it belongs to another endpoint or its id is among the kept ids. -/
def survivesDeletion (endpointId : Int) (keep : List Int) (fl : Field) : Bool :=
  fl.relative_endpoint_id != endpointId || keep.contains fl.id

/-- `endpoint_schema_update` from `app/services.py`: fetch the endpoint,
delete its fields whose ids are not among the incoming positive ids,
validate and partition the marked entries, apply the updates, bulk-create
the new fields, and save the endpoint with the new meta_data.  An error
raised after the deletion leaves the deletion in place (autocommit). -/
def endpoint_schema_update (db : DB) (data : SchemaUpdateInput) :
    DB × Except SvcError RelativeEndpoint :=
  match db.relativeEndpoints.find? (fun e => e.id == data.id) with
  | none => (db, .error .notFound)
  | some endpoint =>
    let keep := keepIds data.fields
    let db1 := { db with fields := db.fields.filter (survivesDeletion endpoint.id keep) }
    let available_url_params := url_params endpoint.endpoint
    let schemas := db1.schemas.map (fun s => s.name)
    match processFields schemas available_url_params data.fields with
    | .error e => (db1, .error e)
    | .ok part =>
      match runFieldUpdates part.1 db1.fields with
      | (flds, some err) => ({ db1 with fields := flds }, .error err)
      | (flds, none) =>
        let db2 := { db1 with fields := flds }
        let db3 :=
          { db2 with
            fields := db2.fields ++ mkNewFields data.id db2.nextId part.2,
            nextId := db2.nextId + (part.2.length : Int) }
        let endpoint2 := { endpoint with meta_data := data.meta_data }
        let db4 :=
          { db3 with
            relativeEndpoints := db3.relativeEndpoints.map
              (fun e => if e.id == endpoint.id then endpoint2 else e) }
        (db4, .ok endpoint2)

/-- One input field of a `schema_add` payload. -/
structure SchemaFieldInput where
  key : String
  type : String
  value : String
deriving Repr, DecidableEq

/-- The `schema_add` payload: schema name plus field list. -/
structure SchemaAddInput where
  name : String
  fields : List SchemaFieldInput
deriving Repr, DecidableEq

/-- The `for field in data['fields']` loop of `schema_add`: resolves each
input field to a (key, type, value) triple for a `SchemaData` row — for
type `"schema"` the value is the id of the schema found by name (lookup
failure raises `DoesNotExist`), otherwise the value is the index of the
primitive type name in the enumeration (an unknown name raises
`NotAllowed`).  Rows are only accumulated, never written, here. -/
def resolveSchemaFields (schemas : List Schema) :
    List SchemaFieldInput → Except SvcError (List (String × String × Int))
  | [] => .ok []
  | f :: rest =>
    if f.type == "schema" then
      match schemas.find? (fun s => s.name == f.value) with
      | none => .error .notFound
      | some s =>
        (resolveSchemaFields schemas rest).map (fun l => (f.key, f.type, s.id) :: l)
    else
      if PrimitiveDataType.CHOICES.contains f.value then
        (resolveSchemaFields schemas rest).map (fun l =>
          (f.key, f.type,
            (PrimitiveDataType.CHOICES.findIdx (fun c => c == f.value) : Int)) :: l)
      else
        .error (.notAllowed ("Please enter valid data type, i.e. one of " ++
          String.intercalate ", " PrimitiveDataType.CHOICES))

/-- The rows written by the `bulk_create` of `schema_add`: one
`SchemaData` row per resolved triple, owned by the new schema, with
sequential fresh ids. -/
def mkSchemaDatas (schemaId : Int) : Int → List (String × String × Int) → List SchemaData
  | _, [] => []
  | n, t :: rest =>
    { id := n, schema_id := schemaId, key := t.1, type := t.2.1, value := t.2.2 } ::
      mkSchemaDatas schemaId (n + 1) rest

/-- Modelled from the spec: the `detail()` view of a schema — its name
together with its ordered `SchemaData` rows (the model file is not among
the sources at hand). -/
def schemaDetail (db : DB) (s : Schema) : String × List SchemaData :=
  (s.name, db.schemaDatas.filter (fun d => d.schema_id == s.id))

/-- `schema_add` from `app/services.py`: duplicate names are rejected,
the `Schema` row is created at once, then the field list is resolved (the
lookup for type `"schema"` sees the database including the new row), and
only after the whole list has resolved are the `SchemaData` rows written
in one batch.  An error raised during resolution leaves the already
created `Schema` row in place (autocommit). -/
def schema_add (db : DB) (data : SchemaAddInput) :
    DB × Except SvcError (String × List SchemaData) :=
  if db.schemas.any (fun s => s.name == data.name) then
    (db, .error (.notAllowed (data.name ++ " schema already exists")))
  else
    let schema : Schema := { id := db.nextId, name := data.name }
    let db1 := { db with schemas := db.schemas ++ [schema], nextId := db.nextId + 1 }
    match resolveSchemaFields db1.schemas data.fields with
    | .error e => (db1, .error e)
    | .ok triples =>
      let rows := mkSchemaDatas schema.id db1.nextId triples
      let db2 :=
        { db1 with
          schemaDatas := db1.schemaDatas ++ rows,
          nextId := db1.nextId + (triples.length : Int) }
      (db2, .ok (schemaDetail db2 schema))

/-- The `relative_endpoint_update` payload. -/
structure EndpointUpdateInput where
  id : Int
  endpoint : String
  method : String
deriving Repr, DecidableEq

/-- `relative_endpoint_update` from `app/services.py`: fetch the row,
re-normalize the path, raise `NotAllowed` when some row with the same
(base_endpoint, endpoint, method) triple exists — the filter does not
exclude the row being updated — and otherwise update endpoint, method
and regex_endpoint in place. -/
def relative_endpoint_update (db : DB) (data : EndpointUpdateInput) :
    DB × Except SvcError Unit :=
  match db.relativeEndpoints.find? (fun e => e.id == data.id) with
  | none => (db, .error .notFound)
  | some re =>
    match format_and_regex_endpoint data.endpoint with
    | .error e => (db, .error e)
    | .ok fr =>
      if db.relativeEndpoints.any (fun e =>
          e.base_endpoint_id == re.base_endpoint_id && e.endpoint == fr.1 &&
            e.method == data.method) then
        (db, .error (.notAllowed "Endpoint with same url exists"))
      else
        let db2 :=
          { db with
            relativeEndpoints := db.relativeEndpoints.map (fun e =>
              if e.id == data.id then
                { e with endpoint := fr.1, method := data.method, regex_endpoint := fr.2 }
              else e) }
        (db2, .ok ())

/-- Modelled from the spec: parsing a stored meta_data blob into its
structured form.  meta_data is an opaque, caller-defined blob, so the
(de)serialization pair is modelled as the identity on the stored string. -/
def jsonLoads (s : String) : String := s

/-- Modelled from the spec: re-serializing a parsed meta_data blob into
storage form; inverse of `jsonLoads` under the opaque-blob model. -/
def jsonDumps (s : String) : String := s

/-- Modelled from the spec: the `detail()` view of a relative endpoint as
exported — its row attributes with the owning base endpoint's id under
`base_endpoint`, the parsed meta_data, the derived `url_params`, and the
endpoint's embedded `Field` rows. -/
structure RelEndpointDetail where
  id : Int
  base_endpoint : Int
  endpoint : String
  method : String
  regex_endpoint : String
  meta_data : String
  url_params : List String
  fields : List Field
deriving Repr, DecidableEq

/-- Modelled from the spec: the `detail()` view of a schema as exported —
its row attributes plus its `SchemaData` rows under the `schema` key
(which `data_import` deletes before recreating the row). -/
structure SchemaDetailRow where
  id : Int
  name : String
  schema : List SchemaData
deriving Repr, DecidableEq

/-- Modelled from the spec: the `detail()` view of a `SchemaData` row —
its attributes with the owning schema's id under the `schema` key (which
`data_import` renames to `schema_id`). -/
structure SchemaDataDetail where
  id : Int
  schema : Int
  key : String
  type : String
  value : Int
deriving Repr, DecidableEq

/-- The five named lists of an export snapshot. -/
structure Snapshot where
  base_endpoints : List BaseEndpoint
  relative_endpoints : List RelEndpointDetail
  schema : List SchemaDetailRow
  fields : List Field
  schema_data : List SchemaDataDetail
deriving Repr, DecidableEq

/-- The exported detail of one relative endpoint. -/
def relEndpointDetail (db : DB) (e : RelativeEndpoint) : RelEndpointDetail :=
  { id := e.id, base_endpoint := e.base_endpoint_id, endpoint := e.endpoint,
    method := e.method, regex_endpoint := e.regex_endpoint,
    meta_data := jsonLoads e.meta_data, url_params := url_params e.endpoint,
    fields := db.fields.filter (fun f => f.relative_endpoint_id == e.id) }

/-- `data_export` from `app/services.py`: the detail projections of all
rows of the five entity kinds. -/
def data_export (db : DB) : Snapshot :=
  { base_endpoints := db.baseEndpoints,
    relative_endpoints := db.relativeEndpoints.map (relEndpointDetail db),
    schema := db.schemas.map (fun s =>
      { id := s.id, name := s.name,
        schema := db.schemaDatas.filter (fun d => d.schema_id == s.id) }),
    fields := db.fields,
    schema_data := db.schemaDatas.map (fun d =>
      { id := d.id, schema := d.schema_id, key := d.key, type := d.type,
        value := d.value }) }

/-- `data_import` from `app/services.py`: delete all rows of the five
entity kinds, then recreate them from the snapshot with ids taken as-is —
base endpoints verbatim; relative endpoints from their details with
meta_data re-serialized; fields collected from each relative endpoint's
embedded list (the snapshot's flat `fields` list is ignored), each bound
to its endpoint's id; schemas from their details minus the nested
`schema` key; schema data with the `schema` key renamed to `schema_id`. -/
def data_import (db : DB) (data : Snapshot) : DB :=
  { db with
    baseEndpoints := data.base_endpoints,
    relativeEndpoints := data.relative_endpoints.map (fun d =>
      { id := d.id, base_endpoint_id := d.base_endpoint, endpoint := d.endpoint,
        method := d.method, regex_endpoint := d.regex_endpoint,
        meta_data := jsonDumps d.meta_data }),
    fields := (data.relative_endpoints.map (fun d =>
      d.fields.map (fun f => { f with relative_endpoint_id := d.id }))).flatten,
    schemas := data.schema.map (fun s => { id := s.id, name := s.name }),
    schemaDatas := data.schema_data.map (fun d =>
      { id := d.id, schema_id := d.schema, key := d.key, type := d.type,
        value := d.value }) }

/-- Decidable equality for `Except`, needed to evaluate results on
concrete inputs. -/
instance exceptDecEq {ε α : Type} [DecidableEq ε] [DecidableEq α] :
    DecidableEq (Except ε α) := fun a b =>
  match a, b with
  | .ok x, .ok y =>
    if h : x = y then isTrue (h ▸ rfl) else isFalse (fun he => h (Except.ok.inj he))
  | .error x, .error y =>
    if h : x = y then isTrue (h ▸ rfl) else isFalse (fun he => h (Except.error.inj he))
  | .ok _, .error _ => isFalse (fun h => Except.noConfusion h)
  | .error _, .ok _ => isFalse (fun h => Except.noConfusion h)

/-- A small concrete database for instantiating theorems: one base
endpoint, one relative endpoint owning two fields, no schemas. -/
def exDB : DB :=
  { baseEndpoints := [{ id := 1, endpoint := "api" }],
    relativeEndpoints := [{ id := 2, base_endpoint_id := 1, endpoint := "/a",
                            method := "GET", regex_endpoint := "e", meta_data := "m" }],
    fields := [{ id := 3, relative_endpoint_id := 2, key := "k1", type := "value",
                 value := "string", is_array := false },
               { id := 4, relative_endpoint_id := 2, key := "k2", type := "value",
                 value := "integer", is_array := false }],
    schemas := [],
    schemaDatas := [],
    nextId := 5 }

/-- The relative endpoint row of `exDB`. -/
def exEndpoint : RelativeEndpoint :=
  { id := 2, base_endpoint_id := 1, endpoint := "/a", method := "GET",
    regex_endpoint := "e", meta_data := "m" }

/-- An update payload whose marked entries validate: a truthy update of
field 3, a falsy (new) entry, and an unmarked entry that would fail
validation if were it selected. -/
def exInput1 : SchemaUpdateInput :=
  { id := 2,
    fields :=
      [{ id? := some 3, key := "k1", type := "value", value := "boolean",
         is_array := false, isChanged? := some true },
       { id? := none, key := "k3", type := "value", value := "string",
         is_array := false, isChanged? := some false },
       { id? := none, key := "kx", type := "bogus", value := "x",
         is_array := false, isChanged? := none }],
    meta_data := "m2" }

/-- An update payload with one marked entry that fails validation (a
schema reference to a name that does not exist). -/
def exInput2 : SchemaUpdateInput :=
  { id := 2,
    fields := [{ id? := some 3, key := "k1", type := "schema", value := "nope",
                 is_array := false, isChanged? := some true }],
    meta_data := "m2" }

end MockServer

namespace MockServer

/-- `base_endpoint_add` with a non-slashed argument, unfolded: the input
string is used as the get-or-create key verbatim. -/
theorem base_endpoint_add_no_slash (db : DB) (s : String)
    (hs : s.data.head? ≠ some '/') :
    base_endpoint_add db s =
      match db.baseEndpoints.find? (fun b => b.endpoint == s) with
      | some b => (db, b)
      | none =>
        ({ db with
           baseEndpoints := db.baseEndpoints ++ [⟨db.nextId, s⟩],
           nextId := db.nextId + 1 }, ⟨db.nextId, s⟩) := by
  unfold base_endpoint_add
  rw [if_neg hs]

/-- C8: `base_endpoint_add` is idempotent and insensitive to a single
leading slash — calling it twice returns the same row and leaves the
database of the first call unchanged, and prepending one `/` to a
slash-free endpoint string gives the identical call; the result type has
no error case, so duplicate creation never raises. -/
theorem base_endpoint_add_idempotent_slash_insensitive (db : DB) (s : String)
    (hs : s.data.head? ≠ some '/') :
    base_endpoint_add (base_endpoint_add db s).1 s = base_endpoint_add db s ∧
    base_endpoint_add db (String.mk ('/' :: s.data)) = base_endpoint_add db s := by
  constructor
  · rw [base_endpoint_add_no_slash db s hs]
    cases hf : db.baseEndpoints.find? (fun b => b.endpoint == s) with
    | some b =>
      simp only
      rw [base_endpoint_add_no_slash db s hs, hf]
    | none =>
      simp only
      rw [base_endpoint_add_no_slash _ s hs]
      simp only [List.find?_append, hf, Option.none_or]
      simp
  · rw [base_endpoint_add_no_slash db s hs]
    rfl

/-- Shape of `endpoint_schema_update` once the endpoint lookup has
succeeded, as one match on the validation loop's outcome.  The schema
list consulted by the loop is read after the deletion step, but the
deletion touches only `Field` rows, so it is `db.schemas`. -/
theorem endpoint_schema_update_eq (db : DB) (data : SchemaUpdateInput)
    (endpoint : RelativeEndpoint)
    (hfind : db.relativeEndpoints.find? (fun e => e.id == data.id) = some endpoint) :
    endpoint_schema_update db data =
      match processFields (db.schemas.map (fun s => s.name))
          (url_params endpoint.endpoint) data.fields with
      | .error e =>
        ({ db with
           fields := db.fields.filter (survivesDeletion endpoint.id (keepIds data.fields)) },
         .error e)
      | .ok part =>
        match runFieldUpdates part.1
            (db.fields.filter (survivesDeletion endpoint.id (keepIds data.fields))) with
        | (flds, some err) => ({ db with fields := flds }, .error err)
        | (flds, none) =>
          ({ db with
             fields := flds ++ mkNewFields data.id db.nextId part.2,
             nextId := db.nextId + (part.2.length : Int),
             relativeEndpoints := db.relativeEndpoints.map (fun e =>
               if e.id == endpoint.id then { endpoint with meta_data := data.meta_data }
               else e) },
           .ok { endpoint with meta_data := data.meta_data }) := by
  unfold endpoint_schema_update
  rw [hfind]

/-- Entries without the `isChanged` key are invisible to the validation
and partition loop: filtering them away does not change its outcome. -/
theorem processFields_filter_isSome (schemas urlParams : List String)
    (fields : List FieldEntry) :
    processFields schemas urlParams (fields.filter (fun f => f.isChanged?.isSome)) =
      processFields schemas urlParams fields := by
  induction fields with
  | nil => rfl
  | cons f rest ih =>
    cases hch : f.isChanged? with
    | none => simp [processFields, hch, List.filter_cons, ih]
    | some b =>
      cases hc : checkEntry schemas urlParams f with
      | error e => simp [processFields, hch, List.filter_cons, hc]
      | ok u => simp [processFields, hch, List.filter_cons, hc, ih]

/-- When every entry carrying the `isChanged` key validates, the loop
partitions the entries by the truthiness of `isChanged`: truthy entries
make up `fields_to_change` and falsy ones `new_fields`, in order. -/
theorem processFields_all_valid (schemas urlParams : List String)
    (fields : List FieldEntry)
    (hvalid : ∀ f ∈ fields, f.isChanged?.isSome →
      checkEntry schemas urlParams f = .ok ()) :
    processFields schemas urlParams fields =
      .ok (fields.filter (fun f => f.isChanged? == some true),
           fields.filter (fun f => f.isChanged? == some false)) := by
  induction fields with
  | nil => rfl
  | cons f rest ih =>
    have hrest := fun g hg => hvalid g (List.mem_cons_of_mem f hg)
    cases hch : f.isChanged? with
    | none => simp [processFields, hch, List.filter_cons, ih hrest]
    | some b =>
      have hok := hvalid f (List.mem_cons_self f rest) (by simp [hch])
      cases b <;> simp [processFields, hch, hok, List.filter_cons, ih hrest]

/-- With every entry carrying an `id` key, the update loop runs to
completion without a `KeyError`. -/
theorem runFieldUpdates_no_crash (cs : List FieldEntry) (l : List Field)
    (h : ∀ f ∈ cs, f.id?.isSome) : (runFieldUpdates cs l).2 = none := by
  induction cs generalizing l with
  | nil => rfl
  | cons c cs ih =>
    cases hci : c.id? with
    | none =>
      have hc := h c (List.mem_cons_self c cs)
      rw [hci] at hc
      simp at hc
    | some i =>
      simp only [runFieldUpdates, hci]
      exact ih _ (fun f hf => h f (List.mem_cons_of_mem c hf))

/-- C1: routing of incoming entries in `endpoint_schema_update` — an
entry without the `isChanged` key is neither validated nor written (the
loop's outcome is unchanged when such entries are dropped, even if they
are invalid); when every marked entry validates and every truthy entry
carries its selecting `id` key (without it the update loop crashes with
a `KeyError` instead, see `runFieldUpdates`), the entries with truthy
`isChanged` are applied as in-place updates by id and the entries with
falsy `isChanged` are inserted as fresh `Field` rows bound to the
endpoint. -/
theorem endpoint_schema_update_routing (db : DB) (data : SchemaUpdateInput)
    (endpoint : RelativeEndpoint)
    (hfind : db.relativeEndpoints.find? (fun e => e.id == data.id) = some endpoint)
    (hvalid : ∀ f ∈ data.fields, f.isChanged?.isSome →
      checkEntry (db.schemas.map (fun s => s.name)) (url_params endpoint.endpoint) f =
        .ok ())
    (hid : ∀ f ∈ data.fields, f.isChanged? = some true → f.id?.isSome) :
    processFields (db.schemas.map (fun s => s.name)) (url_params endpoint.endpoint)
        (data.fields.filter (fun f => f.isChanged?.isSome)) =
      processFields (db.schemas.map (fun s => s.name)) (url_params endpoint.endpoint)
        data.fields ∧
    (runFieldUpdates (data.fields.filter (fun f => f.isChanged? == some true))
        (db.fields.filter (survivesDeletion endpoint.id (keepIds data.fields)))).2 =
      none ∧
    endpoint_schema_update db data =
      ({ db with
         fields :=
           (runFieldUpdates (data.fields.filter (fun f => f.isChanged? == some true))
             (db.fields.filter (survivesDeletion endpoint.id (keepIds data.fields)))).1 ++
           mkNewFields data.id db.nextId
             (data.fields.filter (fun f => f.isChanged? == some false)),
         nextId := db.nextId +
           ((data.fields.filter (fun f => f.isChanged? == some false)).length : Int),
         relativeEndpoints := db.relativeEndpoints.map (fun e =>
           if e.id == endpoint.id then { endpoint with meta_data := data.meta_data }
           else e) },
       .ok { endpoint with meta_data := data.meta_data }) := by
  have hids : ∀ f ∈ data.fields.filter (fun f => f.isChanged? == some true),
      f.id?.isSome := by
    intro f hf
    have hm := List.mem_filter.mp hf
    exact hid f hm.1 (by simpa using hm.2)
  have hrun0 := runFieldUpdates_no_crash
    (data.fields.filter (fun f => f.isChanged? == some true))
    (db.fields.filter (survivesDeletion endpoint.id (keepIds data.fields))) hids
  refine ⟨processFields_filter_isSome _ _ _, hrun0, ?_⟩
  obtain ⟨flds, hrun⟩ : ∃ flds,
      runFieldUpdates (data.fields.filter (fun f => f.isChanged? == some true))
        (db.fields.filter (survivesDeletion endpoint.id (keepIds data.fields))) =
      (flds, none) := by
    cases hrun2 : runFieldUpdates
        (data.fields.filter (fun f => f.isChanged? == some true))
        (db.fields.filter (survivesDeletion endpoint.id (keepIds data.fields))) with
    | mk a b =>
      rw [hrun2] at hrun0
      cases hrun0
      exact ⟨a, rfl⟩
  rw [endpoint_schema_update_eq db data endpoint hfind,
    processFields_all_valid _ _ _ hvalid]
  simp only [hrun]

/-- C2: when some marked entry fails validation, `endpoint_schema_update`
persists no field update, no field creation and no meta_data change — but
the step-1 deletion of stale current fields has already happened and is
returned as performed. -/
theorem endpoint_schema_update_abort (db : DB) (data : SchemaUpdateInput)
    (endpoint : RelativeEndpoint) (err : SvcError)
    (hfind : db.relativeEndpoints.find? (fun e => e.id == data.id) = some endpoint)
    (herr : processFields (db.schemas.map (fun s => s.name))
      (url_params endpoint.endpoint) data.fields = .error err) :
    endpoint_schema_update db data =
      ({ db with
         fields := db.fields.filter (survivesDeletion endpoint.id (keepIds data.fields)) },
       .error err) := by
  rw [endpoint_schema_update_eq db data endpoint hfind, herr]

/-- The update loop never changes a row's id: whether it completes or
crashes, every row it returns has the id of a row of the input list. -/
theorem mem_runFieldUpdates_id {cs : List FieldEntry} {l : List Field} {x : Field}
    (hx : x ∈ (runFieldUpdates cs l).1) : ∃ y ∈ l, x.id = y.id := by
  induction cs generalizing l with
  | nil => exact ⟨x, hx, rfl⟩
  | cons c cs ih =>
    cases hci : c.id? with
    | none =>
      simp only [runFieldUpdates, hci] at hx
      exact ⟨x, hx, rfl⟩
    | some i =>
      simp only [runFieldUpdates, hci] at hx
      obtain ⟨y, hy, hid⟩ := ih hx
      obtain ⟨z, hz, rfl⟩ := List.mem_map.mp hy
      refine ⟨z, hz, ?_⟩
      rw [hid]
      unfold applyFieldUpdate
      split <;> rfl

/-- Every row built by the creation step carries an id at least the
starting fresh id. -/
theorem mem_mkNewFields_id_ge {eid : Int} {l : List FieldEntry} {x : Field} :
    ∀ {n : Int}, x ∈ mkNewFields eid n l → n ≤ x.id := by
  induction l with
  | nil => intro n hx; simp [mkNewFields] at hx
  | cons f rest ih =>
    intro n hx
    rw [mkNewFields] at hx
    rcases List.mem_cons.mp hx with rfl | hx
    · exact le_refl _
    · have := ih hx
      omega

/-- C3: every current field of the endpoint whose id is not among the
incoming entries' positive ids is deleted, whether or not the validation
of the remaining entries succeeds afterwards (in particular the deletion
also shows in the state returned with a validation error, so it precedes
validation).  The database is assumed well formed: field ids are distinct
and below the fresh-id counter. -/
theorem endpoint_schema_update_deletes_stale (db : DB) (data : SchemaUpdateInput)
    (endpoint : RelativeEndpoint) (fl : Field)
    (hfind : db.relativeEndpoints.find? (fun e => e.id == data.id) = some endpoint)
    (hmem : fl ∈ db.fields) (hown : fl.relative_endpoint_id = endpoint.id)
    (hstale : fl.id ∉ keepIds data.fields)
    (hids : (db.fields.map (fun g => g.id)).Nodup)
    (hfresh : ∀ g ∈ db.fields, g.id < db.nextId) :
    fl ∉ (endpoint_schema_update db data).1.fields := by
  have hsurv : survivesDeletion endpoint.id (keepIds data.fields) fl = false := by
    simp [survivesDeletion, hown, hstale]
  have hinj := List.inj_on_of_nodup_map hids
  rw [endpoint_schema_update_eq db data endpoint hfind]
  cases hp : processFields (db.schemas.map (fun s => s.name))
      (url_params endpoint.endpoint) data.fields with
  | error e =>
    simp only
    intro hmem2
    have h2 := (List.mem_filter.mp hmem2).2
    rw [hsurv] at h2
    exact Bool.false_ne_true h2
  | ok part =>
    simp only
    cases hrun : runFieldUpdates part.1
        (db.fields.filter (survivesDeletion endpoint.id (keepIds data.fields))) with
    | mk flds o =>
      have hflds : ∀ x ∈ flds, ∃ y ∈ db.fields.filter
          (survivesDeletion endpoint.id (keepIds data.fields)), x.id = y.id := by
        intro x hxf
        have hx2 : x ∈ (runFieldUpdates part.1 (db.fields.filter
            (survivesDeletion endpoint.id (keepIds data.fields)))).1 := by
          rw [hrun]
          exact hxf
        exact mem_runFieldUpdates_id hx2
      have hnotin : fl ∉ flds := by
        intro hmem2
        obtain ⟨y, hy, hid⟩ := hflds fl hmem2
        have hyd := List.mem_of_mem_filter hy
        have hfy : fl = y := hinj hmem hyd hid
        subst hfy
        have h2 := (List.mem_filter.mp hy).2
        rw [hsurv] at h2
        exact Bool.false_ne_true h2
      cases o with
      | some err => exact hnotin
      | none =>
        simp only
        intro hmem2
        rcases List.mem_append.mp hmem2 with h1 | h2
        · exact hnotin h1
        · have hge := mem_mkNewFields_id_ge h2
          have hlt := hfresh fl hmem
          omega

/-- C6: a selected entry whose type is none of the four tags fails the
whole operation immediately with the catch-all message, and that message
enumerates `Field.SCHEMA`, `Field.VALUE` and `Field.URL_PARAM` while not
mentioning `Field.QUERY_PARAM`. -/
theorem processFields_unknown_type (schemas urlParams : List String)
    (f : FieldEntry) (rest : List FieldEntry) (b : Bool)
    (hch : f.isChanged? = some b)
    (h1 : f.type ≠ Field.SCHEMA) (h2 : f.type ≠ Field.VALUE)
    (h3 : f.type ≠ Field.URL_PARAM) (h4 : f.type ≠ Field.QUERY_PARAM) :
    processFields schemas urlParams (f :: rest) =
      .error (.notAllowed badTypeMsg) ∧
    Field.SCHEMA.data <:+: badTypeMsg.data ∧
    Field.VALUE.data <:+: badTypeMsg.data ∧
    Field.URL_PARAM.data <:+: badTypeMsg.data ∧
    ¬ Field.QUERY_PARAM.data <:+: badTypeMsg.data := by
  refine ⟨?_, by decide, by decide, by decide, by decide⟩
  rw [processFields, hch]
  have hc : checkEntry schemas urlParams f = .error (.notAllowed badTypeMsg) := by
    unfold checkEntry
    rw [if_neg (by simpa using h1), if_neg (by simpa using h2),
      if_neg (by simpa using h3), if_neg (by simpa using h4)]
  rw [hc]

/-- C10: with an empty incoming field list, `endpoint_schema_update`
succeeds, deletes every current field of the endpoint, creates and
updates nothing, and still overwrites the endpoint's meta_data. -/
theorem endpoint_schema_update_empty_fields (db : DB) (i : Int) (md : String)
    (endpoint : RelativeEndpoint)
    (hfind : db.relativeEndpoints.find? (fun e => e.id == i) = some endpoint) :
    endpoint_schema_update db ⟨i, [], md⟩ =
      ({ db with
         fields := db.fields.filter (fun fl => fl.relative_endpoint_id != endpoint.id),
         relativeEndpoints := db.relativeEndpoints.map (fun e =>
           if e.id == endpoint.id then { endpoint with meta_data := md } else e) },
       .ok { endpoint with meta_data := md }) := by
  unfold endpoint_schema_update
  rw [hfind]
  simp [keepIds, processFields, runFieldUpdates, mkNewFields, survivesDeletion]
  exact List.filter_congr (fun fl _ => by simp [survivesDeletion])

/-- Witness for C8 at a concrete database and endpoint string. -/
theorem base_endpoint_add_idempotent_slash_insensitive_witness :
    ("api".data.head? ≠ some '/') ∧
    (base_endpoint_add (base_endpoint_add ⟨[], [], [], [], [], 1⟩ "api").1 "api" =
        base_endpoint_add ⟨[], [], [], [], [], 1⟩ "api" ∧
      base_endpoint_add ⟨[], [], [], [], [], 1⟩ (String.mk ('/' :: "api".data)) =
        base_endpoint_add ⟨[], [], [], [], [], 1⟩ "api") :=
  ⟨by decide,
   base_endpoint_add_idempotent_slash_insensitive ⟨[], [], [], [], [], 1⟩ "api"
     (by decide)⟩

/-- Witness for C1 at a concrete database and payload. -/
theorem endpoint_schema_update_routing_witness :
    (exDB.relativeEndpoints.find? (fun e => e.id == exInput1.id) = some exEndpoint ∧
     (∀ f ∈ exInput1.fields, f.isChanged?.isSome →
       checkEntry (exDB.schemas.map (fun s => s.name)) (url_params exEndpoint.endpoint)
         f = .ok ()) ∧
     ∀ f ∈ exInput1.fields, f.isChanged? = some true → f.id?.isSome) ∧
    (processFields (exDB.schemas.map (fun s => s.name)) (url_params exEndpoint.endpoint)
        (exInput1.fields.filter (fun f => f.isChanged?.isSome)) =
      processFields (exDB.schemas.map (fun s => s.name)) (url_params exEndpoint.endpoint)
        exInput1.fields ∧
     (runFieldUpdates (exInput1.fields.filter (fun f => f.isChanged? == some true))
        (exDB.fields.filter
          (survivesDeletion exEndpoint.id (keepIds exInput1.fields)))).2 = none ∧
     endpoint_schema_update exDB exInput1 =
      ({ exDB with
         fields :=
           (runFieldUpdates (exInput1.fields.filter (fun f => f.isChanged? == some true))
             (exDB.fields.filter
               (survivesDeletion exEndpoint.id (keepIds exInput1.fields)))).1 ++
           mkNewFields exInput1.id exDB.nextId
             (exInput1.fields.filter (fun f => f.isChanged? == some false)),
         nextId := exDB.nextId +
           ((exInput1.fields.filter (fun f => f.isChanged? == some false)).length : Int),
         relativeEndpoints := exDB.relativeEndpoints.map (fun e =>
           if e.id == exEndpoint.id then { exEndpoint with meta_data := exInput1.meta_data }
           else e) },
       .ok { exEndpoint with meta_data := exInput1.meta_data })) :=
  ⟨⟨by decide, by decide, by decide⟩,
   endpoint_schema_update_routing exDB exInput1 exEndpoint (by decide) (by decide)
     (by decide)⟩

/-- Witness for C2 at a concrete database and payload. -/
theorem endpoint_schema_update_abort_witness :
    (exDB.relativeEndpoints.find? (fun e => e.id == exInput2.id) = some exEndpoint ∧
     processFields (exDB.schemas.map (fun s => s.name)) (url_params exEndpoint.endpoint)
       exInput2.fields =
       .error (.notAllowed ("Please enter valid schema name for " ++ sq ++ "k1" ++ sq ++
         ", i.e. one of "))) ∧
    endpoint_schema_update exDB exInput2 =
      ({ exDB with
         fields := exDB.fields.filter
           (survivesDeletion exEndpoint.id (keepIds exInput2.fields)) },
       .error (.notAllowed ("Please enter valid schema name for " ++ sq ++ "k1" ++ sq ++
         ", i.e. one of "))) :=
  ⟨⟨by decide, by decide⟩,
   endpoint_schema_update_abort exDB exInput2 exEndpoint _ (by decide) (by decide)⟩

/-- Witness for C3 at a concrete database and payload: field 4 is not
among the incoming ids and disappears. -/
theorem endpoint_schema_update_deletes_stale_witness :
    (exDB.relativeEndpoints.find? (fun e => e.id == exInput1.id) = some exEndpoint ∧
     (⟨4, 2, "k2", "value", "integer", false⟩ : Field) ∈ exDB.fields ∧
     (⟨4, 2, "k2", "value", "integer", false⟩ : Field).relative_endpoint_id =
       exEndpoint.id ∧
     (⟨4, 2, "k2", "value", "integer", false⟩ : Field).id ∉ keepIds exInput1.fields ∧
     (exDB.fields.map (fun g => g.id)).Nodup ∧
     ∀ g ∈ exDB.fields, g.id < exDB.nextId) ∧
    (⟨4, 2, "k2", "value", "integer", false⟩ : Field) ∉
      (endpoint_schema_update exDB exInput1).1.fields :=
  ⟨⟨by decide, by decide, by decide, by decide, by decide, by decide⟩,
   endpoint_schema_update_deletes_stale exDB exInput1 exEndpoint
     ⟨4, 2, "k2", "value", "integer", false⟩ (by decide) (by decide) (by decide)
     (by decide) (by decide) (by decide)⟩

/-- Witness for C6 at a concrete selected entry with an unknown type. -/
theorem processFields_unknown_type_witness :
    ((⟨none, "kx", "bogus", "x", false, some true⟩ : FieldEntry).isChanged? =
       some true ∧
     (⟨none, "kx", "bogus", "x", false, some true⟩ : FieldEntry).type ≠ Field.SCHEMA ∧
     (⟨none, "kx", "bogus", "x", false, some true⟩ : FieldEntry).type ≠ Field.VALUE ∧
     (⟨none, "kx", "bogus", "x", false, some true⟩ : FieldEntry).type ≠
       Field.URL_PARAM ∧
     (⟨none, "kx", "bogus", "x", false, some true⟩ : FieldEntry).type ≠
       Field.QUERY_PARAM) ∧
    (processFields [] [] [⟨none, "kx", "bogus", "x", false, some true⟩] =
      .error (.notAllowed badTypeMsg) ∧
     Field.SCHEMA.data <:+: badTypeMsg.data ∧
     Field.VALUE.data <:+: badTypeMsg.data ∧
     Field.URL_PARAM.data <:+: badTypeMsg.data ∧
     ¬ Field.QUERY_PARAM.data <:+: badTypeMsg.data) :=
  ⟨⟨by decide, by decide, by decide, by decide, by decide⟩,
   processFields_unknown_type [] [] ⟨none, "kx", "bogus", "x", false, some true⟩ []
     true rfl (by decide) (by decide) (by decide) (by decide)⟩

/-- Shape of `schema_add` once the duplicate-name check has passed, as
one match on the resolution loop's outcome; the `Schema` row is already
part of the database consulted by the loop. -/
theorem schema_add_eq (db : DB) (data : SchemaAddInput)
    (hname : db.schemas.any (fun s => s.name == data.name) = false) :
    schema_add db data =
      match resolveSchemaFields (db.schemas ++ [⟨db.nextId, data.name⟩]) data.fields with
      | .error e =>
        ({ db with
           schemas := db.schemas ++ [⟨db.nextId, data.name⟩],
           nextId := db.nextId + 1 }, .error e)
      | .ok triples =>
        ({ db with
           schemas := db.schemas ++ [⟨db.nextId, data.name⟩],
           schemaDatas := db.schemaDatas ++
             mkSchemaDatas db.nextId (db.nextId + 1) triples,
           nextId := db.nextId + 1 + (triples.length : Int) },
         .ok (schemaDetail
           ({ db with
              schemas := db.schemas ++ [⟨db.nextId, data.name⟩],
              schemaDatas := db.schemaDatas ++
                mkSchemaDatas db.nextId (db.nextId + 1) triples,
              nextId := db.nextId + 1 + (triples.length : Int) })
           ⟨db.nextId, data.name⟩)) := by
  unfold schema_add
  rw [if_neg (by simp [hname])]

/-- C5: for a fresh schema name, a failure while resolving any field
aborts `schema_add` with no `SchemaData` row written at all, even though
the `Schema` row has already been created (an orphaned `Schema` remains);
and only when the entire field list resolves are the `SchemaData` rows
written, as one batch appended together. -/
theorem schema_add_validation_all_or_nothing (db : DB) (data : SchemaAddInput)
    (hname : db.schemas.any (fun s => s.name == data.name) = false) :
    (∀ e, resolveSchemaFields (db.schemas ++ [⟨db.nextId, data.name⟩]) data.fields =
        .error e →
      schema_add db data =
        ({ db with
           schemas := db.schemas ++ [⟨db.nextId, data.name⟩],
           nextId := db.nextId + 1 }, .error e)) ∧
    (∀ triples,
      resolveSchemaFields (db.schemas ++ [⟨db.nextId, data.name⟩]) data.fields =
        .ok triples →
      (schema_add db data).1.schemaDatas =
        db.schemaDatas ++ mkSchemaDatas db.nextId (db.nextId + 1) triples) := by
  constructor
  · intro e he
    rw [schema_add_eq db data hname, he]
  · intro triples ht
    rw [schema_add_eq db data hname, ht]

/-- Witness for C5: adding a schema with a field whose value is not a
primitive type name fails, leaving the orphaned `Schema` row and writing
no `SchemaData`. -/
theorem schema_add_validation_all_or_nothing_witness :
    (exDB.schemas.any (fun s => s.name == "S") = false) ∧
    ((∀ e, resolveSchemaFields (exDB.schemas ++ [⟨exDB.nextId, "S"⟩])
        [⟨"a", "int", "intx"⟩] = .error e →
      schema_add exDB ⟨"S", [⟨"a", "int", "intx"⟩]⟩ =
        ({ exDB with
           schemas := exDB.schemas ++ [⟨exDB.nextId, "S"⟩],
           nextId := exDB.nextId + 1 }, .error e)) ∧
    (∀ triples,
      resolveSchemaFields (exDB.schemas ++ [⟨exDB.nextId, "S"⟩])
        [⟨"a", "int", "intx"⟩] = .ok triples →
      (schema_add exDB ⟨"S", [⟨"a", "int", "intx"⟩]⟩).1.schemaDatas =
        exDB.schemaDatas ++ mkSchemaDatas exDB.nextId (exDB.nextId + 1) triples)) :=
  ⟨by decide,
   schema_add_validation_all_or_nothing exDB ⟨"S", [⟨"a", "int", "intx"⟩]⟩ (by decide)⟩

/-- C9: a `schema_add` whose single field is of type `"schema"` and names
the schema being created succeeds — the row was created before the loop,
so the lookup resolves to the new schema's own id — and produces a
self-referencing `SchemaData` row (owner and value both the new id). -/
theorem schema_add_self_reference (db : DB) (name k : String)
    (hname : db.schemas.any (fun s => s.name == name) = false) :
    schema_add db ⟨name, [⟨k, "schema", name⟩]⟩ =
      ({ db with
         schemas := db.schemas ++ [⟨db.nextId, name⟩],
         schemaDatas := db.schemaDatas ++
           [(⟨db.nextId + 1, db.nextId, k, "schema", db.nextId⟩ : SchemaData)],
         nextId := db.nextId + 1 + 1 },
       .ok (name,
         (db.schemaDatas ++
           [(⟨db.nextId + 1, db.nextId, k, "schema", db.nextId⟩ : SchemaData)]).filter
           (fun d => d.schema_id == db.nextId))) := by
  rw [schema_add_eq db ⟨name, [⟨k, "schema", name⟩]⟩ hname]
  have hnone : db.schemas.find? (fun s => s.name == name) = none := by
    rw [List.find?_eq_none]
    intro x hx
    have := List.any_eq_false.mp hname x hx
    simpa using this
  have hfind : (db.schemas ++ [(⟨db.nextId, name⟩ : Schema)]).find?
      (fun s => s.name == name) = some ⟨db.nextId, name⟩ := by
    rw [List.find?_append, hnone]
    simp
  simp [resolveSchemaFields, hfind, mkSchemaDatas, schemaDetail, Except.map]

/-- Witness for C9 at a concrete database. -/
theorem schema_add_self_reference_witness :
    (exDB.schemas.any (fun s => s.name == "S") = false) ∧
    schema_add exDB ⟨"S", [⟨"a", "schema", "S"⟩]⟩ =
      ({ exDB with
         schemas := exDB.schemas ++ [⟨exDB.nextId, "S"⟩],
         schemaDatas := exDB.schemaDatas ++
           [(⟨exDB.nextId + 1, exDB.nextId, "a", "schema", exDB.nextId⟩ : SchemaData)],
         nextId := exDB.nextId + 1 + 1 },
       .ok ("S",
         (exDB.schemaDatas ++
           [(⟨exDB.nextId + 1, exDB.nextId, "a", "schema", exDB.nextId⟩ : SchemaData)]).filter
           (fun d => d.schema_id == exDB.nextId))) :=
  ⟨by decide, schema_add_self_reference exDB "S" "a" (by decide)⟩

/-- Counterexample to C4 as stated: in a database whose only relative
endpoint is the one being updated, re-submitting its own path and method
is rejected with the collision failure although no different existing row
collides — the filter does not exclude the row being updated. -/
theorem relative_endpoint_update_self_collision :
    relative_endpoint_update exDB ⟨2, "/a", "GET"⟩ =
      (exDB, .error (.notAllowed "Endpoint with same url exists")) ∧
    exDB.relativeEndpoints.all (fun e => e.id == (2 : Int)) = true := by decide

/-- C4 amended: `relative_endpoint_update` rejects with the collision
failure when the new (base_endpoint, normalized path, method) triple
matches any existing row — including, possibly, the very row being
updated — and otherwise updates endpoint, method and regex_endpoint in
place and leaves the endpoint's fields untouched. -/
theorem relative_endpoint_update_spec (db : DB) (data : EndpointUpdateInput)
    (re : RelativeEndpoint) (ep rgx : String)
    (hfind : db.relativeEndpoints.find? (fun e => e.id == data.id) = some re)
    (hfmt : format_and_regex_endpoint data.endpoint = .ok (ep, rgx)) :
    (db.relativeEndpoints.any (fun e =>
        e.base_endpoint_id == re.base_endpoint_id && e.endpoint == ep &&
          e.method == data.method) = true →
      relative_endpoint_update db data =
        (db, .error (.notAllowed "Endpoint with same url exists"))) ∧
    (db.relativeEndpoints.any (fun e =>
        e.base_endpoint_id == re.base_endpoint_id && e.endpoint == ep &&
          e.method == data.method) = false →
      relative_endpoint_update db data =
        ({ db with
           relativeEndpoints := db.relativeEndpoints.map (fun e =>
             if e.id == data.id then
               { e with endpoint := ep, method := data.method, regex_endpoint := rgx }
             else e) },
         .ok ()) ∧
      (relative_endpoint_update db data).1.fields = db.fields) := by
  have hbody : relative_endpoint_update db data =
      (if db.relativeEndpoints.any (fun e =>
          e.base_endpoint_id == re.base_endpoint_id && e.endpoint == ep &&
            e.method == data.method) then
        (db, .error (.notAllowed "Endpoint with same url exists"))
      else
        ({ db with
           relativeEndpoints := db.relativeEndpoints.map (fun e =>
             if e.id == data.id then
               { e with endpoint := ep, method := data.method, regex_endpoint := rgx }
             else e) },
         .ok ())) := by
    unfold relative_endpoint_update
    rw [hfind, hfmt]
  constructor
  · intro hcol
    rw [hbody, if_pos hcol]
  · intro hcol
    rw [hbody, if_neg (by simp [hcol])]
    exact ⟨rfl, rfl⟩

/-- Witness for the amended C4 at a concrete database: updating to a
fresh path succeeds in place. -/
theorem relative_endpoint_update_spec_witness :
    (exDB.relativeEndpoints.find? (fun e => e.id == (2 : Int)) = some exEndpoint ∧
     format_and_regex_endpoint "/b" = .ok ("/b", "^/b$")) ∧
    ((exDB.relativeEndpoints.any (fun e =>
        e.base_endpoint_id == exEndpoint.base_endpoint_id && e.endpoint == "/b" &&
          e.method == ("GET" : String)) = true →
      relative_endpoint_update exDB ⟨2, "/b", "GET"⟩ =
        (exDB, .error (.notAllowed "Endpoint with same url exists"))) ∧
    (exDB.relativeEndpoints.any (fun e =>
        e.base_endpoint_id == exEndpoint.base_endpoint_id && e.endpoint == "/b" &&
          e.method == ("GET" : String)) = false →
      relative_endpoint_update exDB ⟨2, "/b", "GET"⟩ =
        ({ exDB with
           relativeEndpoints := exDB.relativeEndpoints.map (fun e =>
             if e.id == (2 : Int) then
               { e with endpoint := "/b", method := "GET", regex_endpoint := "^/b$" }
             else e) },
         .ok ()) ∧
      (relative_endpoint_update exDB ⟨2, "/b", "GET"⟩).1.fields = exDB.fields)) :=
  ⟨⟨by decide, by decide⟩,
   relative_endpoint_update_spec exDB ⟨2, "/b", "GET"⟩ exEndpoint "/b" "^/b$"
     (by decide) (by decide)⟩

/-- Witness for C10 at a concrete database. -/
theorem endpoint_schema_update_empty_fields_witness :
    (exDB.relativeEndpoints.find? (fun e => e.id == (2 : Int)) = some exEndpoint) ∧
    endpoint_schema_update exDB ⟨2, [], "m2"⟩ =
      ({ exDB with
         fields := exDB.fields.filter
           (fun fl => fl.relative_endpoint_id != exEndpoint.id),
         relativeEndpoints := exDB.relativeEndpoints.map (fun e =>
           if e.id == exEndpoint.id then { exEndpoint with meta_data := "m2" } else e) },
       .ok { exEndpoint with meta_data := "m2" }) :=
  ⟨by decide,
   endpoint_schema_update_empty_fields exDB 2 "m2" exEndpoint (by decide)⟩

/-- Re-binding the rows of one endpoint's embedded field list to that
endpoint is the identity: they already carry its id. -/
theorem filter_rid_map_set (fs : List Field) (i : Int) :
    (fs.filter (fun f => f.relative_endpoint_id == i)).map
      (fun f => { f with relative_endpoint_id := i }) =
      fs.filter (fun f => f.relative_endpoint_id == i) := by
  have h : ∀ f ∈ fs.filter (fun f => f.relative_endpoint_id == i),
      ({ f with relative_endpoint_id := i } : Field) = f := by
    intro f hf
    have h2 := (List.mem_filter.mp hf).2
    have heq : f.relative_endpoint_id = i := by simpa using h2
    rw [← heq]
  rw [List.map_congr_left h, List.map_id']

/-- Pulling one field out of the per-endpoint regrouping: when the
field's owner occurs among endpoints with distinct ids, regrouping
`f :: fs` is a permutation of `f` consed onto the regrouping of `fs`. -/
theorem flatten_filter_cons (f : Field) (fs : List Field) :
    ∀ es : List RelativeEndpoint,
      (es.map (fun e => e.id)).Nodup →
      (∃ e ∈ es, f.relative_endpoint_id = e.id) →
      ((es.map (fun e => (f :: fs).filter
          (fun g => g.relative_endpoint_id == e.id))).flatten).Perm
        (f :: (es.map (fun e => fs.filter
          (fun g => g.relative_endpoint_id == e.id))).flatten) := by
  intro es
  induction es with
  | nil =>
    intro _ hf
    simp at hf
  | cons e es ih =>
    intro hnd hf
    rw [List.map_cons, List.nodup_cons] at hnd
    by_cases h : f.relative_endpoint_id = e.id
    · have htail : es.map (fun e2 => (f :: fs).filter
          (fun g => g.relative_endpoint_id == e2.id)) =
          es.map (fun e2 => fs.filter (fun g => g.relative_endpoint_id == e2.id)) := by
        apply List.map_congr_left
        intro e2 he2
        have hne : e2.id ≠ e.id := by
          intro hc
          exact hnd.1 (hc ▸ List.mem_map_of_mem (fun e => e.id) he2)
        have hneg : (f.relative_endpoint_id == e2.id) = false := by
          rw [h]
          simp [hne.symm]
        simp [List.filter_cons, hneg]
      have hpos : (f.relative_endpoint_id == e.id) = true := by simp [h]
      have hhead : (f :: fs).filter (fun g => g.relative_endpoint_id == e.id) =
          f :: fs.filter (fun g => g.relative_endpoint_id == e.id) := by
        simp [List.filter_cons, hpos]
      rw [List.map_cons, List.flatten_cons, htail, hhead, List.cons_append]
      exact List.Perm.refl _
    · obtain ⟨e', he', heq⟩ := hf
      have he'' : e' ∈ es := by
        rcases List.mem_cons.mp he' with rfl | h2
        · exact absurd heq h
        · exact h2
      have ihh := ih hnd.2 ⟨e', he'', heq⟩
      have hneg : (f.relative_endpoint_id == e.id) = false := by simp [h]
      have hhead : (f :: fs).filter (fun g => g.relative_endpoint_id == e.id) =
          fs.filter (fun g => g.relative_endpoint_id == e.id) := by
        simp [List.filter_cons, hneg]
      rw [List.map_cons, List.flatten_cons, hhead]
      exact (List.Perm.append_left _ ihh).trans List.perm_middle

/-- Regrouping a field list by owning endpoint and flattening yields a
permutation of the original list, provided the endpoint ids are distinct
and every field's owner occurs. -/
theorem flatten_filter_perm (fs : List Field) (es : List RelativeEndpoint)
    (hids : (es.map (fun e => e.id)).Nodup)
    (hown : ∀ f ∈ fs, ∃ e ∈ es, f.relative_endpoint_id = e.id) :
    ((es.map (fun e => fs.filter
        (fun g => g.relative_endpoint_id == e.id))).flatten).Perm fs := by
  induction fs with
  | nil => simp
  | cons f fs ih =>
    have h1 := flatten_filter_cons f fs es hids (hown f (List.mem_cons_self f fs))
    have h2 := ih (fun g hg => hown g (List.mem_cons_of_mem f hg))
    exact h1.trans (h2.cons f)

/-- C7: exporting the whole database and importing the snapshot back
restores the entity graph — base endpoints, relative endpoints, schemas
and schema data return as the identical row lists (snapshot ids preserved
as-is, not regenerated), and the field rows return as a permutation of
the original rows (import rebuilds them grouped by owning endpoint from
the embedded per-endpoint lists).  The database is assumed well formed:
relative endpoint ids are distinct and every field's owner exists. -/
theorem data_export_import_round_trip (db : DB)
    (hids : (db.relativeEndpoints.map (fun e => e.id)).Nodup)
    (hown : ∀ f ∈ db.fields, ∃ e ∈ db.relativeEndpoints,
      f.relative_endpoint_id = e.id) :
    (data_import db (data_export db)).baseEndpoints = db.baseEndpoints ∧
    (data_import db (data_export db)).relativeEndpoints = db.relativeEndpoints ∧
    (data_import db (data_export db)).schemas = db.schemas ∧
    (data_import db (data_export db)).schemaDatas = db.schemaDatas ∧
    ((data_import db (data_export db)).fields).Perm db.fields := by
  refine ⟨rfl, ?_, ?_, ?_, ?_⟩
  · show (db.relativeEndpoints.map (relEndpointDetail db)).map
        (fun d => { id := d.id, base_endpoint_id := d.base_endpoint,
                    endpoint := d.endpoint, method := d.method,
                    regex_endpoint := d.regex_endpoint,
                    meta_data := jsonDumps d.meta_data }) = db.relativeEndpoints
    rw [List.map_map]
    exact List.map_id'' (fun e => rfl) _
  · show ((db.schemas.map (fun s =>
        ({ id := s.id, name := s.name,
           schema := db.schemaDatas.filter (fun d => d.schema_id == s.id) }
          : SchemaDetailRow))).map
        (fun s => ({ id := s.id, name := s.name } : Schema))) = db.schemas
    rw [List.map_map]
    exact List.map_id'' (fun s => rfl) _
  · show ((db.schemaDatas.map (fun d =>
        ({ id := d.id, schema := d.schema_id, key := d.key, type := d.type,
           value := d.value } : SchemaDataDetail))).map
        (fun d => ({ id := d.id, schema_id := d.schema, key := d.key,
                     type := d.type, value := d.value } : SchemaData))) =
      db.schemaDatas
    rw [List.map_map]
    exact List.map_id'' (fun d => rfl) _
  · show (((db.relativeEndpoints.map (relEndpointDetail db)).map
        (fun d => d.fields.map
          (fun f => { f with relative_endpoint_id := d.id }))).flatten).Perm db.fields
    rw [List.map_map]
    have hcomp : ∀ e ∈ db.relativeEndpoints,
        ((fun d : RelEndpointDetail => d.fields.map
            (fun f => { f with relative_endpoint_id := d.id })) ∘
          relEndpointDetail db) e =
        db.fields.filter (fun g => g.relative_endpoint_id == e.id) := by
      intro e _
      exact filter_rid_map_set db.fields e.id
    rw [List.map_congr_left hcomp]
    exact flatten_filter_perm db.fields db.relativeEndpoints hids hown

/-- Witness for C7 at a concrete database. -/
theorem data_export_import_round_trip_witness :
    ((exDB.relativeEndpoints.map (fun e => e.id)).Nodup ∧
     ∀ f ∈ exDB.fields, ∃ e ∈ exDB.relativeEndpoints,
       f.relative_endpoint_id = e.id) ∧
    ((data_import exDB (data_export exDB)).baseEndpoints = exDB.baseEndpoints ∧
     (data_import exDB (data_export exDB)).relativeEndpoints =
       exDB.relativeEndpoints ∧
     (data_import exDB (data_export exDB)).schemas = exDB.schemas ∧
     (data_import exDB (data_export exDB)).schemaDatas = exDB.schemaDatas ∧
     ((data_import exDB (data_export exDB)).fields).Perm exDB.fields) :=
  ⟨⟨by decide, by decide⟩,
   data_export_import_round_trip exDB (by decide) (by decide)⟩

end MockServer
